import Mathlib

/-!
Verification of the wire-format codec core of an X11 protocol library.

The development shallowly embeds, over lists of byte values (Nat, each
byte kept below 256 by explicit reduction modulo 256):

1. the runtime structure-level Serialize and Deserialize implementations
   (src/rw/mod.rs), including the String implementations;
2. the hand-written WarpSourceDimension codec (src/x11/request/input.rs);
3. the code generated by the message layout compiler for requests,
   replies, events (xrbk_macro/src/definition/expansion/writable.rs) and
   for variant sets (xrbk_macro/src/impls.rs).

Buffers are List Nat.  Reading follows the bytes crate semantics used by
the source: a read past the end of a Buf aborts with a panic, which the
embedding represents as the distinguished outcome ReadOutcome.panicked
(as opposed to a returned ReadError value).
-/

/-- Write errors (taxonomy of the runtime codec; the concrete errors
module is re-exported by src/rw/mod.rs). Capacity errors signal a
destination buffer smaller than the value's serialized size. -/
inductive WriteError
  | capacityTooLow
  deriving DecidableEq, Repr

/-- Read errors of the runtime codec: invalid bytes for the target type
(for example non-UTF-8 text) and an unrecognized variant discriminant. -/
inductive ReadError
  | invalidData
  | unrecognizedDiscriminant
  deriving DecidableEq, Repr

/-- Outcome of running a read procedure on a buffer: success with the
value and the remaining bytes, a returned typed error value, or an abort
by panic (the bytes crate panics when a get or copy reaches past the end
of the buffer; the generated variant-set decoder also has a panicking
wildcard arm). -/
inductive ReadOutcome (α : Type)
  | ok : α → List Nat → ReadOutcome α
  | err : ReadError → ReadOutcome α
  | panicked : ReadOutcome α
  deriving DecidableEq, Repr

/-- Width in bytes of one character in Rust's UTF-8 string representation;
String.len in the source is the sum of these widths. -/
def rustCharWidth (c : Nat) : Nat :=
  if c < 0x80 then 1
  else if c < 0x800 then 2
  else if c < 0x10000 then 3
  else 4

/-- True for a UTF-8 continuation byte, 0x80 to 0xBF. -/
def isUtf8Cont (b : Nat) : Bool := 0x80 ≤ b && b < 0xC0

/-- One step of UTF-8 decoding: given a leading byte and the bytes after
it, the code point it opens and the bytes left, or none when the bytes
are not valid UTF-8 at this position (continuation leads, overlong
forms, surrogates, code points above 0x10FFFF are all rejected, as
String::from_utf8 rejects them). -/
def utf8DecodeOne (b : Nat) (rest : List Nat) : Option (Nat × List Nat) :=
  if b < 0x80 then some (b, rest)
  else if 0xC2 ≤ b && b ≤ 0xDF then
    match rest with
    | b1 :: rest2 =>
      if isUtf8Cont b1 then some ((b - 0xC0) * 0x40 + (b1 - 0x80), rest2) else none
    | [] => none
  else if 0xE0 ≤ b && b ≤ 0xEF then
    match rest with
    | b1 :: b2 :: rest3 =>
      if ((b = 0xE0 && 0xA0 ≤ b1 && b1 < 0xC0) ||
          (b = 0xED && 0x80 ≤ b1 && b1 < 0xA0) ||
          (b ≠ 0xE0 && b ≠ 0xED && isUtf8Cont b1)) && isUtf8Cont b2 then
        some ((b - 0xE0) * 0x1000 + (b1 - 0x80) * 0x40 + (b2 - 0x80), rest3)
      else none
    | _ => none
  else if 0xF0 ≤ b && b ≤ 0xF4 then
    match rest with
    | b1 :: b2 :: b3 :: rest4 =>
      if ((b = 0xF0 && 0x90 ≤ b1 && b1 < 0xC0) ||
          (b = 0xF4 && 0x80 ≤ b1 && b1 < 0x90) ||
          (b ≠ 0xF0 && b ≠ 0xF4 && isUtf8Cont b1)) && isUtf8Cont b2 && isUtf8Cont b3 then
        some ((b - 0xF0) * 0x40000 + (b1 - 0x80) * 0x1000 +
          (b2 - 0x80) * 0x40 + (b3 - 0x80), rest4)
      else none
    | _ => none
  else none

/-- Fuelled UTF-8 decoding loop; the fuel only bounds the recursion and
never runs out when it starts at the list's length, since every step
consumes at least the leading byte. -/
def utf8DecodeF : Nat → List Nat → Option (List Nat)
  | _, [] => some []
  | 0, _ :: _ => none
  | fuel + 1, b :: rest =>
    match utf8DecodeOne b rest with
    | some (c, rest2) => (utf8DecodeF fuel rest2).map (fun t => c :: t)
    | none => none

/-- UTF-8 validation and decoding as performed by String::from_utf8 in
the source's String deserialization: the decoded scalar values, or none
for invalid bytes. -/
def utf8Decode (l : List Nat) : Option (List Nat) :=
  utf8DecodeF l.length l

/-- Modelled from the spec: the WriteValue write_1b_to operation of the
runtime value-level contract (the read_value/write_value modules are not
part of the sources at hand).  It appends the value's low byte to the
growable buffer; short strings use it for their 1-byte length and for
each character. -/
def write_1b_to (v : Nat) (buf : List Nat) : List Nat :=
  buf ++ [v % 256]

/-- A Rust String modelled as its list of Unicode scalar values. -/
abbrev RString : Type := List Nat

/-- Rust String.len: the length in bytes of the UTF-8 representation. -/
def RString.rustLen (s : RString) : Nat :=
  (List.map rustCharWidth s).sum

/-- From impl Serialize for String (src/rw/mod.rs, lines 74 to 88): write
the string length with write_1b_to, then each character with
write_1b_to, into a fresh growable buffer. -/
def RString.serialize (s : RString) : Except WriteError (List Nat) :=
  Except.ok (List.foldl (fun bs c => write_1b_to c bs) (write_1b_to (RString.rustLen s) []) s)

/-- From impl Deserialize for String (src/rw/mod.rs, lines 90 to 105):
get_u8 reads the length (panicking if the buffer is empty),
copy_to_bytes copies that many bytes (panicking if fewer remain), and
String::from_utf8 validates them, with failure mapped to InvalidData. -/
def RString.deserialize (buf : List Nat) : ReadOutcome RString :=
  match buf with
  | [] => ReadOutcome.panicked
  | len :: rest =>
    if rest.length < len then ReadOutcome.panicked
    else
      match utf8Decode (rest.take len) with
      | some text => ReadOutcome.ok text (rest.drop len)
      | none => ReadOutcome.err ReadError.invalidData

/-- From Serialize::serialize_to (src/rw/mod.rs, lines 29 to 44),
parametrized by the serialize implementation of the type: serialize the
value to owned bytes, return CapacityTooLow without touching the buffer
when the remaining capacity is below the data's length, otherwise append
the data.  The destination BufMut is modelled as its capacity together
with the bytes already written into it; the result pairs the returned
WriteResult with the final buffer contents. -/
def serialize_to {α : Type} (ser : α → Except WriteError (List Nat)) (v : α)
    (cap : Nat) (buf : List Nat) : Except WriteError Unit × List Nat :=
  match ser v with
  | Except.error e => (Except.error e, buf)
  | Except.ok data =>
    if cap - buf.length < data.length then
      (Except.error WriteError.capacityTooLow, buf)
    else
      (Except.ok (), buf ++ data)

/-- Big-endian 2-byte encoding used by put_u16 of the bytes crate. -/
def u16be (x : Nat) : List Nat :=
  [x / 256 % 256, x % 256]

/-- Big-endian 4-byte encoding used by put_u32 of the bytes crate. -/
def u32be (x : Nat) : List Nat :=
  [x / 16777216 % 256, x / 65536 % 256, x / 256 % 256, x % 256]

/-- From src/x11/request/input.rs, lines 1052 to 1062: either fill the
remaining space or give a specific u16 width or height. -/
inductive WarpSourceDimension
  | fillRemaining
  | other : Nat → WarpSourceDimension
  deriving DecidableEq, Repr

/-- From impl Writable for WarpSourceDimension (input.rs, lines 1086 to
1095): FillRemaining writes the u16 zero, Other writes its u16 value
(the u16 Writable implementation is the big-endian put_u16). -/
def WarpSourceDimension.write_to (v : WarpSourceDimension) (buf : List Nat) : List Nat :=
  match v with
  | WarpSourceDimension.fillRemaining => buf ++ u16be 0
  | WarpSourceDimension.other x => buf ++ u16be (x % 65536)

/-- From impl Readable for WarpSourceDimension (input.rs, lines 1074 to
1084): get_u16 reads two big-endian bytes (panicking when fewer than two
remain); zero decodes to FillRemaining, anything else to Other. -/
def WarpSourceDimension.read_from (buf : List Nat) : ReadOutcome WarpSourceDimension :=
  match buf with
  | b0 :: b1 :: rest =>
    let x := b0 * 256 + b1
    if x = 0 then ReadOutcome.ok WarpSourceDimension.fillRemaining rest
    else ReadOutcome.ok (WarpSourceDimension.other x) rest
  | _ => ReadOutcome.panicked

/-- Modelled from the spec: the kinds of items an element sequence may
hold (named field, derived let value, unused padding); the element
module itself is outside the sources at hand, only its consumers are. -/
inductive ElemKind
  | field
  | letElem
  | unused
  deriving DecidableEq, Repr

/-- Modelled from the spec: one element of a definition's content, with
its metabyte and sequence markers and, since concrete message values are
what the generated writers serialize, the bytes its serialization emits
at its position. -/
structure Element where
  kind : ElemKind
  isMetabyte : Bool
  isSequence : Bool
  bytes : List Nat
  deriving DecidableEq, Repr

/-- Modelled from the spec: Content::metabyte_element, the at most one
element carrying the metabyte marker (the first, by the parser's
invariant the only one). -/
def metabyte_element (c : List Element) : Option Element :=
  c.find? (fun e => e.isMetabyte)

/-- Modelled from the spec: Content::sequence_element, the at most one
element carrying the sequence marker. -/
def sequence_element (c : List Element) : Option Element :=
  c.find? (fun e => e.isSequence)

/-- The body elements of a message: the content in declared order with
the elements already placed in the header (metabyte, sequence) skipped,
exactly the filter applied by the writes loops of impl_writable. -/
def body_elements (c : List Element) : List Element :=
  c.filter (fun e => !e.isMetabyte && !e.isSequence)

/-- The writes loop of the generated write procedures: each element's
serialization appends its bytes to the buffer, in declared order. -/
def serialize_elements (elems : List Element) (buf : List Nat) : List Nat :=
  match elems with
  | [] => buf
  | e :: rest => serialize_elements rest (buf ++ e.bytes)

/-- All bytes the body elements emit, in declared order. -/
def body_bytes (c : List Element) : List Nat :=
  (List.map (fun e => e.bytes) (body_elements c)).flatten

/-- A request definition: major opcode, optional minor opcode, content. -/
structure RequestDef where
  major_opcode : Nat
  minor_opcode : Option Nat
  content : List Element
  deriving DecidableEq, Repr

/-- The second header byte of a request, from the metabyte selection of
Request::impl_writable (writable.rs, lines 119 to 131): the minor opcode
when the request has one, else the metabyte element's serialization,
else a zero byte. -/
def request_metabyte_bytes (r : RequestDef) : List Nat :=
  match r.minor_opcode with
  | some m => [m % 256]
  | none =>
    match metabyte_element r.content with
    | some e => e.bytes
    | none => [0]

/-- Modelled from the spec: the Request::length contract of
src/trait.rs, lines 59 to 78 (the generated length implementations are
outside the sources at hand): the size of the request including its
4-byte header, in 4-byte units. -/
def RequestDef.length (r : RequestDef) : Nat :=
  (4 + (body_bytes r.content).length) / 4

/-- From Request::impl_writable (writable.rs, lines 88 to 161): the
generated write procedure puts the major opcode, the metabyte position,
the u16 length, then serializes the remaining elements in declared
order, skipping metabyte and sequence elements. -/
def RequestDef.write_to (r : RequestDef) (buf : List Nat) : List Nat :=
  serialize_elements (body_elements r.content)
    (buf ++ [r.major_opcode % 256] ++ request_metabyte_bytes r ++ u16be r.length)

/-- A reply definition: its content (the owning request type plays no
part in the generated writer's layout). -/
structure ReplyDef where
  content : List Element
  deriving DecidableEq, Repr

/-- The second header byte of a reply or sequence-bearing event: the
metabyte element's serialization if one is declared, else a zero byte. -/
def metabyte_or_zero (c : List Element) : List Nat :=
  match metabyte_element c with
  | some e => e.bytes
  | none => [0]

/-- Modelled from the spec: the Reply::length contract of src/trait.rs,
lines 169 to 187: the size of the reply in 4-byte units beyond the fixed
32-byte envelope, its 8-byte header included in the size. -/
def ReplyDef.length (rep : ReplyDef) : Nat :=
  ((8 + (body_bytes rep.content).length) - 32) / 4

/-- From Reply::impl_writable (writable.rs, lines 163 to 237): the
generated write procedure puts the constant 1, the metabyte position,
the sequence field (modelled from the spec as that field's two-byte
serialization), the u32 length, then the remaining elements in declared
order. -/
def ReplyDef.write_to (rep : ReplyDef) (buf : List Nat) : List Nat :=
  serialize_elements (body_elements rep.content)
    (buf ++ [1] ++ metabyte_or_zero rep.content ++
      (match sequence_element rep.content with
        | some e => e.bytes
        | none => []) ++
      u32be rep.length)

/-- From Reply::impl_writable (writable.rs, lines 202 to 205): code
generation succeeds, yielding the reply's writer, only when the content
has a sequence element that is a field; any other shape hits the
generation-time panic saying replies must have a sequence field, which
the embedding represents as none. -/
def ReplyDef.impl_writable (rep : ReplyDef) : Option (List Nat → List Nat) :=
  match sequence_element rep.content with
  | some e =>
    if e.kind = ElemKind.field then some (ReplyDef.write_to rep) else none
  | none => none

/-- An event definition: its code and content. -/
structure EventDef where
  code : Nat
  content : List Element
  deriving DecidableEq, Repr

/-- From Event::impl_writable (writable.rs, lines 239 to 320): the
generated write procedure puts the event code; then, only when the
content has a sequence element, the metabyte position and the sequence
field (modelled from the spec as its two-byte serialization); then the
remaining elements in declared order, skipping metabyte and sequence
elements. -/
def EventDef.write_to (ev : EventDef) (buf : List Nat) : List Nat :=
  match sequence_element ev.content with
  | none => serialize_elements (body_elements ev.content) (buf ++ [ev.code % 256])
  | some seqEl =>
    serialize_elements (body_elements ev.content)
      (buf ++ [ev.code % 256] ++ metabyte_or_zero ev.content ++ seqEl.bytes)

/-- From Enum::serialize_tokens (impls.rs, lines 236 to 312): the
discriminant expression starts at 0, is reset by an explicitly specified
discriminant, tags the variant's arm, and has 1 added after every
variant.  The resulting per-variant discriminant table, for a variant
list given by each variant's optional explicit discriminant. -/
def serialize_discriminants (vs : List (Option Nat)) (cur : Nat) : List Nat :=
  match vs with
  | [] => []
  | v :: rest =>
    match v with
    | some d => d :: serialize_discriminants rest (d + 1)
    | none => cur :: serialize_discriminants rest (cur + 1)

/-- From Enum::deserialize_tokens (impls.rs, lines 314 to 368): the same
discriminant accumulation, producing the values the generated read
procedure's match arms test against. -/
def deserialize_discriminants (vs : List (Option Nat)) (cur : Nat) : List Nat :=
  match vs with
  | [] => []
  | v :: rest =>
    match v with
    | some d => d :: deserialize_discriminants rest (d + 1)
    | none => cur :: deserialize_discriminants rest (cur + 1)

/-- From Enum::serialize_tokens: the generated write for a fieldless
variant at a given index writes the variant's discriminant cast to u8
and then the variant's items (none for a fieldless variant). -/
def enum_write_variant (vs : List (Option Nat)) (i : Nat) : List Nat :=
  [(deserialize_discriminants vs 0).getD i 0 % 256]

/-- From Enum::deserialize_tokens (impls.rs, lines 351 to 367), for a
fieldless variant set: read one byte (modelled from the spec as a typed
read error on an empty buffer, since the reader extension is outside the
sources at hand), dispatch on the first match arm whose discriminant
matches, and hit the wildcard arm, which is a panic, when none does. -/
def enum_read_from (vs : List (Option Nat)) (buf : List Nat) : ReadOutcome Nat :=
  match buf with
  | [] => ReadOutcome.err ReadError.invalidData
  | b :: rest =>
    match (deserialize_discriminants vs 0).findIdx? (fun d => d % 256 = b) with
    | some i => ReadOutcome.ok i rest
    | none => ReadOutcome.panicked

/-- The big-endian u16 read out of positions i and i + 1 of a buffer. -/
def beU16At (l : List Nat) (i : Nat) : Nat :=
  l.getD i 0 * 256 + l.getD (i + 1) 0

/-- The big-endian u32 read out of positions i to i + 3 of a buffer. -/
def beU32At (l : List Nat) (i : Nat) : Nat :=
  l.getD i 0 * 16777216 + l.getD (i + 1) 0 * 65536 +
    l.getD (i + 2) 0 * 256 + l.getD (i + 3) 0

/-! Helper lemmas about the embedded definitions. -/

theorem foldl_write_1b (s : List Nat) : ∀ bs : List Nat,
    List.foldl (fun bs c => write_1b_to c bs) bs s = bs ++ s.map (fun c => c % 256) := by
  induction s with
  | nil => intro bs; simp
  | cons c rest ih =>
    intro bs
    simp only [List.foldl_cons, List.map_cons]
    rw [ih]
    simp [write_1b_to]

theorem utf8DecodeOne_ascii (b : Nat) (rest : List Nat) (hb : b < 0x80) :
    utf8DecodeOne b rest = some (b, rest) := by
  unfold utf8DecodeOne
  rw [if_pos hb]

theorem utf8DecodeF_ascii (fuel : Nat) : ∀ l : List Nat, l.length ≤ fuel →
    (∀ b ∈ l, b < 0x80) → utf8DecodeF fuel l = some l := by
  induction fuel with
  | zero =>
    intro l hl _
    cases l with
    | nil => rfl
    | cons b rest => simp at hl
  | succ fuel ih =>
    intro l hl h
    cases l with
    | nil => rfl
    | cons b rest =>
      have hb : b < 0x80 := h b (List.mem_cons_self b rest)
      have hrest : rest.length ≤ fuel := by
        simp only [List.length_cons] at hl
        omega
      rw [utf8DecodeF, utf8DecodeOne_ascii b rest hb]
      show Option.map (fun t => b :: t) (utf8DecodeF fuel rest) = some (b :: rest)
      rw [ih rest hrest (fun x hx => h x (List.mem_cons_of_mem b hx))]
      rfl

theorem utf8Decode_ascii (l : List Nat) (h : ∀ b ∈ l, b < 0x80) :
    utf8Decode l = some l :=
  utf8DecodeF_ascii l.length l le_rfl h

theorem rustLen_ascii (s : List Nat) (h : ∀ c ∈ s, c < 0x80) :
    RString.rustLen s = s.length := by
  induction s with
  | nil => rfl
  | cons c rest ih =>
    have hc : c < 0x80 := h c (List.mem_cons_self c rest)
    have ih' := ih (fun x hx => h x (List.mem_cons_of_mem c hx))
    simp only [RString.rustLen, List.map_cons, List.sum_cons, List.length_cons] at *
    rw [rustCharWidth, if_pos hc, ih']
    omega

theorem map_mod_ascii (s : List Nat) (h : ∀ c ∈ s, c < 0x80) :
    s.map (fun c => c % 256) = s := by
  induction s with
  | nil => rfl
  | cons c rest ih =>
    have hc : c < 0x80 := h c (List.mem_cons_self c rest)
    have ih' := ih (fun x hx => h x (List.mem_cons_of_mem c hx))
    simp only [List.map_cons, ih']
    rw [Nat.mod_eq_of_lt (by omega)]

/-! Claims C1 to C4: the runtime codec. -/

/-- C1 counterexample: the round-trip law fails as universally stated.
The one-character string holding the scalar 0xE9 serializes, char per
byte, to a buffer whose length byte (the UTF-8 byte length, 2) exceeds
the one byte of character data, so deserializing it aborts instead of
returning the string; and WarpSourceDimension.Other 0 writes the bytes
0, 0, which read back as FillRemaining, a different value. -/
theorem c1_roundtrip_counterexample :
    RString.serialize [233] = Except.ok [2, 233] ∧
    RString.deserialize [2, 233] = ReadOutcome.panicked ∧
    WarpSourceDimension.write_to (WarpSourceDimension.other 0) [] = [0, 0] ∧
    WarpSourceDimension.read_from [0, 0] =
      ReadOutcome.ok WarpSourceDimension.fillRemaining [] :=
  ⟨rfl, rfl, rfl, rfl⟩

/-- C1 (amended): the round-trip law restricted to where it holds: every
ASCII string of length at most 255 serializes to its length byte
followed by its bytes and deserializes back to itself (in particular the
string ab maps to the bytes 2, 97, 98 and back); every
WarpSourceDimension other than Other 0 round-trips (Other carrying its
u16 payload). -/
theorem c1_roundtrip_amended :
    (∀ s : RString, (∀ c ∈ s, c < 0x80) → s.length ≤ 255 →
      RString.serialize s = Except.ok (s.length :: s) ∧
      RString.deserialize (s.length :: s) = ReadOutcome.ok s []) ∧
    (RString.serialize [97, 98] = Except.ok [2, 97, 98] ∧
      RString.deserialize [2, 97, 98] = ReadOutcome.ok [97, 98] []) ∧
    (∀ x : Nat, x < 65536 → x ≠ 0 →
      WarpSourceDimension.read_from
          (WarpSourceDimension.write_to (WarpSourceDimension.other x) []) =
        ReadOutcome.ok (WarpSourceDimension.other x) []) ∧
    WarpSourceDimension.read_from
        (WarpSourceDimension.write_to WarpSourceDimension.fillRemaining []) =
      ReadOutcome.ok WarpSourceDimension.fillRemaining [] := by
  refine ⟨?_, ⟨rfl, rfl⟩, ?_, rfl⟩
  · intro s hascii hlen
    constructor
    · unfold RString.serialize
      rw [foldl_write_1b, map_mod_ascii s hascii]
      unfold write_1b_to
      rw [rustLen_ascii s hascii, Nat.mod_eq_of_lt (by omega)]
      rfl
    · simp only [RString.deserialize]
      rw [if_neg (by omega), List.take_length, utf8Decode_ascii s hascii]
      show ReadOutcome.ok s (s.drop s.length) = ReadOutcome.ok s []
      rw [List.drop_length]
  · intro x hx hne
    have h65536 : x % 65536 = x := Nat.mod_eq_of_lt hx
    have hdiv : x / 256 % 256 = x / 256 := Nat.mod_eq_of_lt (by omega)
    simp only [WarpSourceDimension.write_to, WarpSourceDimension.read_from, u16be,
      h65536, hdiv, List.nil_append]
    have hxeq : x / 256 * 256 + x % 256 = x := by omega
    rw [hxeq, if_neg hne]

/-- C1 witness: the amended round trip applied to the concrete ASCII
string hi and to the dimension Other 7. -/
theorem c1_roundtrip_amended_witness :
    (RString.serialize [104, 105] = Except.ok [2, 104, 105] ∧
      RString.deserialize [2, 104, 105] = ReadOutcome.ok [104, 105] []) ∧
    WarpSourceDimension.read_from
        (WarpSourceDimension.write_to (WarpSourceDimension.other 7) []) =
      ReadOutcome.ok (WarpSourceDimension.other 7) [] :=
  ⟨c1_roundtrip_amended.1 [104, 105] (by decide) (by decide),
   c1_roundtrip_amended.2.2.1 7 (by decide) (by decide)⟩

/-- C2: at the failing input, the generated variant-set decoder for a
three-variant set with implicit discriminants 0, 1, 2, fed a buffer with
leading byte 3, hits the wildcard match arm, which aborts by panic
rather than returning an UnrecognizedDiscriminant error value; a
recognized discriminant still decodes to its variant. -/
theorem c2_unrecognized_discriminant_panics :
    deserialize_discriminants [none, none, none] 0 = [0, 1, 2] ∧
    enum_read_from [none, none, none] [3] = ReadOutcome.panicked ∧
    enum_read_from [none, none, none] [1] = ReadOutcome.ok 1 [] := by
  refine ⟨rfl, ?_, ?_⟩ <;> rfl

/-- C3: at the failing input 3, 97, 98 (declared length 3 exceeds the 2
available bytes), String deserialization aborts by panic, inside
copy_to_bytes, rather than returning a read error; with a correct
length byte the same data deserializes fine. -/
theorem c3_overlong_length_panics :
    RString.deserialize [3, 97, 98] = ReadOutcome.panicked ∧
    RString.deserialize [2, 97, 98] = ReadOutcome.ok [97, 98] [] :=
  ⟨rfl, rfl⟩

/-- C4: serialize_to, for any serialize implementation that succeeds on
the value, returns CapacityTooLow and leaves the destination buffer
untouched when the remaining capacity is below the serialized length,
and otherwise appends exactly the serialized bytes and succeeds. -/
theorem c4_serialize_to_capacity {α : Type} (ser : α → Except WriteError (List Nat))
    (v : α) (cap : Nat) (buf data : List Nat) (h : ser v = Except.ok data) :
    (cap - buf.length < data.length →
      serialize_to ser v cap buf = (Except.error WriteError.capacityTooLow, buf)) ∧
    (data.length ≤ cap - buf.length →
      serialize_to ser v cap buf = (Except.ok (), buf ++ data)) := by
  constructor <;> intro hc <;> unfold serialize_to <;> rw [h] <;> simp <;> omega

/-- C4 witness: the string holding the single character a serializes to
two bytes; a buffer with one byte of room is refused untouched, a buffer
with two bytes of room receives exactly those bytes. -/
theorem c4_serialize_to_capacity_witness :
    serialize_to RString.serialize [97] 1 [] =
      (Except.error WriteError.capacityTooLow, []) ∧
    serialize_to RString.serialize [97] 2 [] = (Except.ok (), [1, 97]) :=
  ⟨(c4_serialize_to_capacity RString.serialize [97] 1 [] [1, 97] rfl).1 (by decide),
   (c4_serialize_to_capacity RString.serialize [97] 2 [] [1, 97] rfl).2 (by decide)⟩

/-! Claims C5 to C10: the layout compiler. -/

theorem serialize_elements_eq (es : List Element) : ∀ buf : List Nat,
    serialize_elements es buf = buf ++ (List.map (fun e => e.bytes) es).flatten := by
  induction es with
  | nil => intro buf; simp [serialize_elements]
  | cons e rest ih =>
    intro buf
    rw [serialize_elements, ih]
    simp

theorem requestDef_write_to_eq (r : RequestDef) (buf : List Nat) :
    RequestDef.write_to r buf =
      buf ++ [r.major_opcode % 256] ++ request_metabyte_bytes r ++ u16be r.length ++
        body_bytes r.content := by
  simp [RequestDef.write_to, serialize_elements_eq, body_bytes, List.append_assoc]

theorem eventDef_write_to_noseq_eq (ev : EventDef) (buf : List Nat)
    (h : sequence_element ev.content = none) :
    EventDef.write_to ev buf = buf ++ [ev.code % 256] ++ body_bytes ev.content := by
  simp [EventDef.write_to, h, serialize_elements_eq, body_bytes, List.append_assoc]

theorem eventDef_write_to_seq_eq (ev : EventDef) (buf : List Nat) (seqEl : Element)
    (h : sequence_element ev.content = some seqEl) :
    EventDef.write_to ev buf =
      buf ++ [ev.code % 256] ++ metabyte_or_zero ev.content ++ seqEl.bytes ++
        body_bytes ev.content := by
  simp [EventDef.write_to, h, serialize_elements_eq, body_bytes, List.append_assoc]

theorem replyDef_write_to_eq (rep : ReplyDef) (buf : List Nat) (seqEl : Element)
    (h : sequence_element rep.content = some seqEl) :
    ReplyDef.write_to rep buf =
      buf ++ [1] ++ metabyte_or_zero rep.content ++ seqEl.bytes ++
        u32be rep.length ++ body_bytes rep.content := by
  simp [ReplyDef.write_to, h, serialize_elements_eq, body_bytes, List.append_assoc]

/-- C5 counterexample: a request definition that declares a minor opcode
and no metabyte item does not get 0 as its second header byte, as the
claim would have it: the generated writer puts the minor opcode there. -/
theorem c5_metabyte_zero_counterexample :
    metabyte_element ([] : List Element) = none ∧
    RequestDef.write_to
        { major_opcode := 1, minor_opcode := some 5, content := [] } [] =
      [1, 5, 0, 1] :=
  ⟨rfl, rfl⟩

/-- C5 (amended): for every request definition without a minor opcode,
the generated write procedure emits the major opcode byte, then the
declared metabyte item's encoding if one is declared and the zero byte
if none is, then the two-byte length, then the remaining body items in
declared order with the header-placed items skipped. -/
theorem c5_request_write_layout :
    (∀ r : RequestDef, r.minor_opcode = none → metabyte_element r.content = none →
      RequestDef.write_to r [] =
        [r.major_opcode % 256] ++ [0] ++ u16be r.length ++ body_bytes r.content) ∧
    (∀ r : RequestDef, ∀ e : Element,
      r.minor_opcode = none → metabyte_element r.content = some e →
      RequestDef.write_to r [] =
        [r.major_opcode % 256] ++ e.bytes ++ u16be r.length ++ body_bytes r.content) := by
  constructor
  · intro r h hm
    rw [requestDef_write_to_eq]
    simp [request_metabyte_bytes, h, hm]
  · intro r e h hm
    rw [requestDef_write_to_eq]
    simp [request_metabyte_bytes, h, hm]

/-- C5 witness: the amended layout at a concrete request without a minor
opcode or metabyte item, and at one with a one-byte metabyte item. -/
theorem c5_request_write_layout_witness :
    RequestDef.write_to { major_opcode := 2, minor_opcode := none, content := [] } [] =
      [2, 0, 0, 1] ∧
    RequestDef.write_to
        { major_opcode := 2, minor_opcode := none,
          content := [⟨ElemKind.field, true, false, [9]⟩] } [] =
      [2, 9, 0, 1] := by
  constructor
  · have h := c5_request_write_layout.1
      { major_opcode := 2, minor_opcode := none, content := [] } rfl rfl
    simpa using h
  · have h := c5_request_write_layout.2
      { major_opcode := 2, minor_opcode := none,
        content := [⟨ElemKind.field, true, false, [9]⟩] }
      ⟨ElemKind.field, true, false, [9]⟩ rfl rfl
    simpa using h

/-- C7: an event without a sequence item is written as its code byte
immediately followed by the body items, with no metabyte slot byte and
no sequence field; an event with a sequence item is written as the code
byte, the metabyte item's encoding or zero, the sequence field, then the
body items. -/
theorem c7_event_write_layout :
    (∀ ev : EventDef, sequence_element ev.content = none →
      EventDef.write_to ev [] = [ev.code % 256] ++ body_bytes ev.content) ∧
    (∀ ev : EventDef, ∀ seqEl : Element, sequence_element ev.content = some seqEl →
      EventDef.write_to ev [] =
        [ev.code % 256] ++ metabyte_or_zero ev.content ++ seqEl.bytes ++
          body_bytes ev.content) := by
  constructor
  · intro ev h
    rw [eventDef_write_to_noseq_eq ev [] h]
    rfl
  · intro ev seqEl h
    rw [eventDef_write_to_seq_eq ev [] seqEl h]
    rfl

/-- C7 witness: a sequenceless event writes only its code byte before
the body; a sequence-bearing event with no metabyte item writes code,
zero, and the two sequence bytes. -/
theorem c7_event_write_layout_witness :
    EventDef.write_to { code := 33, content := [] } [] = [33] ∧
    EventDef.write_to
        { code := 33, content := [⟨ElemKind.field, false, true, [0, 9]⟩] } [] =
      [33, 0, 0, 9] := by
  constructor
  · simpa using c7_event_write_layout.1 { code := 33, content := [] } rfl
  · simpa using c7_event_write_layout.2
      { code := 33, content := [⟨ElemKind.field, false, true, [0, 9]⟩] }
      ⟨ElemKind.field, false, true, [0, 9]⟩ rfl

/-- C9: in the generated request writer the minor opcode, when the
request declares one, is what lands in the second header byte, whether
or not a metabyte item is declared; a declared metabyte item lands there
only when there is no minor opcode. -/
theorem c9_minor_opcode_priority :
    (∀ r : RequestDef, ∀ m : Nat, r.minor_opcode = some m →
      RequestDef.write_to r [] =
        [r.major_opcode % 256] ++ [m % 256] ++ u16be r.length ++ body_bytes r.content) ∧
    (∀ r : RequestDef, ∀ e : Element, ∀ b : Nat,
      r.minor_opcode = none → metabyte_element r.content = some e → e.bytes = [b] →
      (RequestDef.write_to r []).getD 1 0 = b) := by
  constructor
  · intro r m h
    rw [requestDef_write_to_eq]
    simp [request_metabyte_bytes, h]
  · intro r e b h hm hb
    have hw : RequestDef.write_to r [] =
        r.major_opcode % 256 :: b :: (u16be r.length ++ body_bytes r.content) := by
      rw [requestDef_write_to_eq]
      simp [request_metabyte_bytes, h, hm, hb]
    rw [hw]
    rfl

/-- C9 witness: a request with minor opcode 5 and a declared metabyte
item with encoding 9 writes 5 as its second header byte; without the
minor opcode the same definition writes 9 there. -/
theorem c9_minor_opcode_priority_witness :
    RequestDef.write_to
        { major_opcode := 1, minor_opcode := some 5,
          content := [⟨ElemKind.field, true, false, [9]⟩] } [] =
      [1, 5, 0, 1] ∧
    (RequestDef.write_to
        { major_opcode := 1, minor_opcode := none,
          content := [⟨ElemKind.field, true, false, [9]⟩] } []).getD 1 0 = 9 := by
  constructor
  · have h := c9_minor_opcode_priority.1
      { major_opcode := 1, minor_opcode := some 5,
        content := [⟨ElemKind.field, true, false, [9]⟩] } 5 rfl
    simpa using h
  · exact c9_minor_opcode_priority.2
      { major_opcode := 1, minor_opcode := none,
        content := [⟨ElemKind.field, true, false, [9]⟩] }
      ⟨ElemKind.field, true, false, [9]⟩ 9 rfl rfl rfl

/-- C6: the length-unit law.  For a request whose metabyte position
holds one byte, whose body is 4-byte aligned and whose total size fits
the u16 length field, the u16 written at header bytes 2 and 3 times 4 is
exactly the number of bytes emitted.  For a reply whose metabyte
position holds one byte, whose sequence field holds two, whose body
extends at least to the 32-byte envelope along a 4-byte boundary and
whose length fits the u32 field, the u32 written at header bytes 4 to 7
times 4 is the number of bytes emitted minus 32. -/
theorem c6_length_unit_law :
    (∀ r : RequestDef,
      (request_metabyte_bytes r).length = 1 →
      (body_bytes r.content).length % 4 = 0 →
      4 + (body_bytes r.content).length < 262144 →
      beU16At (RequestDef.write_to r []) 2 * 4 = (RequestDef.write_to r []).length ∧
      1 ≤ RequestDef.length r) ∧
    (∀ rep : ReplyDef, ∀ seqEl : Element,
      sequence_element rep.content = some seqEl →
      (metabyte_or_zero rep.content).length = 1 →
      seqEl.bytes.length = 2 →
      24 ≤ (body_bytes rep.content).length →
      ((body_bytes rep.content).length - 24) % 4 = 0 →
      (body_bytes rep.content).length - 24 < 17179869184 →
      beU32At (ReplyDef.write_to rep []) 4 * 4 =
        (ReplyDef.write_to rep []).length - 32) := by
  constructor
  · intro r h1 h2 h3
    obtain ⟨m0, hm0⟩ := List.length_eq_one.mp h1
    have hL : RequestDef.length r = (4 + (body_bytes r.content).length) / 4 := rfl
    have hw : RequestDef.write_to r [] =
        r.major_opcode % 256 :: m0 ::
          RequestDef.length r / 256 % 256 :: RequestDef.length r % 256 ::
            body_bytes r.content := by
      rw [requestDef_write_to_eq, hm0]
      simp [u16be]
    rw [hw]
    constructor
    · show (RequestDef.length r / 256 % 256 * 256 + RequestDef.length r % 256) * 4 =
        (body_bytes r.content).length + 1 + 1 + 1 + 1
      omega
    · omega
  · intro rep seqEl hseq h1 h2 h3 h4 h5
    obtain ⟨m0, hm0⟩ := List.length_eq_one.mp h1
    obtain ⟨s0, s1, hs⟩ := List.length_eq_two.mp h2
    have hL : ReplyDef.length rep = ((8 + (body_bytes rep.content).length) - 32) / 4 := rfl
    have hw : ReplyDef.write_to rep [] =
        1 :: m0 :: s0 :: s1 ::
          ReplyDef.length rep / 16777216 % 256 :: ReplyDef.length rep / 65536 % 256 ::
            ReplyDef.length rep / 256 % 256 :: ReplyDef.length rep % 256 ::
              body_bytes rep.content := by
      rw [replyDef_write_to_eq rep [] seqEl hseq, hm0, hs]
      simp [u32be]
    rw [hw]
    show (ReplyDef.length rep / 16777216 % 256 * 16777216 +
        ReplyDef.length rep / 65536 % 256 * 65536 +
        ReplyDef.length rep / 256 % 256 * 256 + ReplyDef.length rep % 256) * 4 =
      (body_bytes rep.content).length + 1 + 1 + 1 + 1 + 1 + 1 + 1 + 1 - 32
    omega

/-- C6 witness: a request with an empty body has length field 1 and four
bytes on the wire; a reply whose body is exactly the 24 envelope bytes
has length field 0 and 32 bytes on the wire. -/
theorem c6_length_unit_law_witness :
    beU16At (RequestDef.write_to
        { major_opcode := 1, minor_opcode := none, content := [] } []) 2 * 4 =
      (RequestDef.write_to
        { major_opcode := 1, minor_opcode := none, content := [] } []).length ∧
    beU32At (ReplyDef.write_to
        { content := [⟨ElemKind.field, false, true, [0, 7]⟩,
            ⟨ElemKind.field, false, false, List.replicate 24 0⟩] } []) 4 * 4 =
      (ReplyDef.write_to
        { content := [⟨ElemKind.field, false, true, [0, 7]⟩,
            ⟨ElemKind.field, false, false, List.replicate 24 0⟩] } []).length - 32 :=
  ⟨(c6_length_unit_law.1 { major_opcode := 1, minor_opcode := none, content := [] }
      (by decide) (by decide) (by decide)).1,
   c6_length_unit_law.2
      { content := [⟨ElemKind.field, false, true, [0, 7]⟩,
          ⟨ElemKind.field, false, false, List.replicate 24 0⟩] }
      ⟨ElemKind.field, false, true, [0, 7]⟩
      (by decide) (by decide) (by decide) (by decide) (by decide) (by decide)⟩

theorem serialize_eq_deserialize_discriminants (vs : List (Option Nat)) :
    ∀ cur : Nat, serialize_discriminants vs cur = deserialize_discriminants vs cur := by
  induction vs with
  | nil => intro cur; rfl
  | cons v rest ih =>
    intro cur
    cases v <;> simp [serialize_discriminants, deserialize_discriminants, ih]

theorem serialize_discriminants_head_implicit (vs : List (Option Nat)) :
    ∀ cur : Nat, vs[0]? = some none →
      (serialize_discriminants vs cur)[0]? = some cur := by
  cases vs with
  | nil => intro cur h; simp at h
  | cons v rest =>
    intro cur h
    simp only [List.getElem?_cons_zero, Option.some.injEq] at h
    subst h
    simp [serialize_discriminants]

theorem serialize_discriminants_explicit (vs : List (Option Nat)) :
    ∀ cur i d : Nat, vs[i]? = some (some d) →
      (serialize_discriminants vs cur)[i]? = some d := by
  induction vs with
  | nil => intro cur i d h; simp at h
  | cons v rest ih =>
    intro cur i d h
    cases i with
    | zero =>
      simp only [List.getElem?_cons_zero, Option.some.injEq] at h
      subst h
      simp [serialize_discriminants]
    | succ j =>
      simp only [List.getElem?_cons_succ] at h
      cases v <;> simp [serialize_discriminants] <;> exact ih _ j d h

theorem serialize_discriminants_implicit_succ (vs : List (Option Nat)) :
    ∀ cur i : Nat, vs[i + 1]? = some none →
      (serialize_discriminants vs cur)[i + 1]? =
        some ((serialize_discriminants vs cur).getD i 0 + 1) := by
  induction vs with
  | nil => intro cur i h; simp at h
  | cons v rest ih =>
    intro cur i h
    simp only [List.getElem?_cons_succ] at h
    cases v with
    | some d =>
      cases i with
      | zero =>
        simp only [serialize_discriminants, List.getElem?_cons_succ, List.getD_cons_zero]
        exact serialize_discriminants_head_implicit rest (d + 1) h
      | succ j =>
        simp only [serialize_discriminants, List.getElem?_cons_succ, List.getD_cons_succ]
        exact ih (d + 1) j h
    | none =>
      cases i with
      | zero =>
        simp only [serialize_discriminants, List.getElem?_cons_succ, List.getD_cons_zero]
        exact serialize_discriminants_head_implicit rest (cur + 1) h
      | succ j =>
        simp only [serialize_discriminants, List.getElem?_cons_succ, List.getD_cons_succ]
        exact ih (cur + 1) j h

/-- C8: the discriminant tables of the generated variant-set writer and
reader agree for every variant list; a first variant without an explicit
discriminant is tagged 0; a variant with an explicit discriminant is
tagged that value; a later variant without one is tagged the previous
variant's tag plus one; and the byte a variant's write arm emits is its
table entry reduced to a byte. -/
theorem c8_enum_discriminants :
    (∀ vs : List (Option Nat), ∀ cur : Nat,
      serialize_discriminants vs cur = deserialize_discriminants vs cur) ∧
    (∀ vs : List (Option Nat), vs[0]? = some none →
      (serialize_discriminants vs 0)[0]? = some 0) ∧
    (∀ vs : List (Option Nat), ∀ i d : Nat, vs[i]? = some (some d) →
      (serialize_discriminants vs 0)[i]? = some d) ∧
    (∀ vs : List (Option Nat), ∀ i : Nat, vs[i + 1]? = some none →
      (serialize_discriminants vs 0)[i + 1]? =
        some ((serialize_discriminants vs 0).getD i 0 + 1)) ∧
    (∀ vs : List (Option Nat), ∀ i : Nat,
      enum_write_variant vs i = [(serialize_discriminants vs 0).getD i 0 % 256]) := by
  refine ⟨fun vs cur => serialize_eq_deserialize_discriminants vs cur,
    fun vs h => serialize_discriminants_head_implicit vs 0 h,
    fun vs i d h => serialize_discriminants_explicit vs 0 i d h,
    fun vs i h => serialize_discriminants_implicit_succ vs 0 i h,
    fun vs i => ?_⟩
  rw [enum_write_variant, serialize_eq_deserialize_discriminants]

/-- C8 witness: the variant list implicit, explicit 5, implicit yields
the table 0, 5, 6 on both the write and the read side, the third entry
being the second plus one. -/
theorem c8_enum_discriminants_witness :
    deserialize_discriminants [none, some 5, none] 0 = [0, 5, 6] ∧
    (serialize_discriminants [none, some 5, none] 0)[0]? = some 0 ∧
    (serialize_discriminants [none, some 5, none] 0)[1]? = some 5 ∧
    (serialize_discriminants [none, some 5, none] 0)[2]? =
      some ((serialize_discriminants [none, some 5, none] 0).getD 1 0 + 1) ∧
    enum_write_variant [none, some 5, none] 2 = [6] := by
  refine ⟨?_, ?_, ?_, ?_, ?_⟩
  · rw [← c8_enum_discriminants.1 [none, some 5, none] 0]
    decide
  · exact c8_enum_discriminants.2.1 [none, some 5, none] rfl
  · exact c8_enum_discriminants.2.2.1 [none, some 5, none] 1 5 rfl
  · exact c8_enum_discriminants.2.2.2.1 [none, some 5, none] 1 rfl
  · rw [c8_enum_discriminants.2.2.2.2 [none, some 5, none] 2]
    decide

/-- C10: code generation for a reply succeeds, producing its write
procedure, exactly when the reply's content has a sequence element that
is a named field; for any other content Reply::impl_writable panics at
generation time, modelled as none. -/
theorem c10_reply_requires_sequence_field (rep : ReplyDef) :
    (ReplyDef.impl_writable rep).isSome = true ↔
      ∃ e : Element, sequence_element rep.content = some e ∧ e.kind = ElemKind.field := by
  unfold ReplyDef.impl_writable
  cases h : sequence_element rep.content with
  | none => simp
  | some e =>
    by_cases hk : e.kind = ElemKind.field
    · simp [hk]
    · simp [hk]
